import Mathlib

/-!
Verification of the catalog caching and incremental-pagination engine of the
stremio-ai-companion repository.

The definitions below are a shallow embedding of the Python source:
* `src/app/api/stremio.py`, function `_cached_catalog` (the catalog
  accumulation engine, both the Redis/durable branch and the in-memory/LRU
  branch);
* `src/app/services/cache.py`, classes `MemoryBackend` (bounded in-process
  LRU store with lazy TTL expiry) and `RedisBackend` (durable backend with
  fail-open error handling);
* `src/app/services/__init__.py`, the `CATALOG_PROMPTS` table and the
  catalog-id to configuration resolution performed in `_cached_catalog`.

Modelling conventions:
* Python dict items flowing through the engine expose only the fields the
  engine reads: `meta.get("id")` and `meta.get("name", "")`; they are
  modelled by `MetaItem` (all other fields pass through unchanged and are
  irrelevant to every property below).
* `str.lower` is modelled character-by-character by `pyLower` (ASCII case
  folding, which is what the catalog names exercise); `str.rstrip` is
  modelled by `pyRstrip`, which removes trailing characters drawn from the
  given character set, exactly like Python.
* Wall-clock time (`time.time()`) is modelled by a `Nat`-valued instant
  passed explicitly to each operation.
* The out-of-scope generation pipeline (`_process_catalog_request_internal`)
  is an opaque function from the prompt it receives to the batch of items it
  returns; the poster-overlay step (`_apply_rpdb_posters`) does not touch the
  `id`/`name` projection and is the identity in this model.
* `async` functions are pure state-passing functions; exception handling in
  the Redis backend is modelled with an explicit outcome type.
-/

/-- Character-level model of Python `str.lower` for the ASCII range. -/
def pyCharLower (c : Char) : Char :=
  if 'A' ≤ c ∧ c ≤ 'Z' then Char.ofNat (c.toNat + 32) else c

/-- Model of Python `str.lower` (applied to catalog item names). -/
def pyLower (s : String) : String :=
  String.mk (s.data.map pyCharLower)

/-- Model of Python `str.rstrip(chars)`: remove trailing characters that are
members of the character set `chars`. -/
def pyRstrip (s chars : String) : String :=
  String.mk ((s.data.reverse.dropWhile (fun c => c ∈ chars.data)).reverse)

/-- Projection of a catalog item as seen by the accumulation engine: the
`id` field (absent keys yield Python `None`, hence `Option`) and the `name`
field. -/
structure MetaItem where
  id : Option String
  name : Option String
deriving DecidableEq, Repr

/-- Model of `meta.get("name", "")`. -/
def metaName (m : MetaItem) : String :=
  m.name.getD ""

/-- Model of `meta.get("name", "").lower()`, the case-insensitive
deduplication key. -/
def lowerName (m : MetaItem) : String :=
  pyLower (metaName m)

/-- Model of the duplicate-filtering loop of `_cached_catalog`
(src/app/api/stremio.py lines 496-503): walk the freshly generated items in
order, accepting an item only when its id is not among the seen ids and its
lowercased name is not among the seen titles, and extending both seen sets
with each accepted item. -/
def filterNewMetas : List MetaItem → List (Option String) → List String → List MetaItem
  | [], _, _ => []
  | meta :: rest, existingIds, existingTitles =>
    if meta.id ∉ existingIds ∧ lowerName meta ∉ existingTitles then
      meta :: filterNewMetas rest (meta.id :: existingIds) (lowerName meta :: existingTitles)
    else
      filterNewMetas rest existingIds existingTitles

/-- Model of the cache-hit normalization of `_cached_catalog`
(src/app/api/stremio.py lines 460-466): a stored value counts as a hit only
when it is present and holds at least one item; otherwise the engine works
from an empty list. -/
def normalizeCached (cached : Option (List MetaItem)) : List MetaItem :=
  match cached with
  | some metas => if metas.length > 0 then metas else []
  | none => []

/-- Model of the augmented prompt built in `_cached_catalog`
(src/app/api/stremio.py lines 491-494): when any items already exist, the
base prompt is extended with an instruction listing every already-suggested
name. -/
def enhancedPrompt (prompt : String) (existing : List MetaItem) : String :=
  let existingList := existing.map metaName
  if existingList.isEmpty then prompt
  else
    prompt ++ "\n\nAvoid recommending these already suggested titles: "
      ++ String.intercalate ", " existingList

/-- Observable outcome of one durable-mode accumulation call: the list
returned to the caller, the value written back to the cache (if any write
happened), the accepted new items (`new_metas` in the source), the prompt
actually sent to the generator (if it was invoked), and the number of
generator invocations. -/
structure CatalogStep where
  returned : List MetaItem
  stored : Option (List MetaItem)
  accepted : List MetaItem
  promptUsed : Option String
  genCalls : Nat
deriving DecidableEq, Repr

/-- Model of the Redis (durable) branch of `_cached_catalog`
(src/app/api/stremio.py lines 459-517): normalize the cached value, return
it untouched when it already holds at least `maxCatalogEntries` items,
otherwise invoke the generator once on the augmented prompt, filter the
returned batch against the existing ids and lowercased names, append the
accepted items, write the combined list back, and return it. The `skip`
parameter is received exactly as the source function receives it; the source
uses it only inside `logger.debug` calls. -/
def cachedCatalogRedis (maxCatalogEntries : Nat) (prompt : String)
    (gen : String → List MetaItem) (cached : Option (List MetaItem))
    (skip : Nat) : CatalogStep :=
  let existing := normalizeCached cached
  if existing.length ≥ maxCatalogEntries then
    { returned := existing, stored := none, accepted := [], promptUsed := none, genCalls := 0 }
  else
    let existingIds := existing.map (fun m => m.id)
    let existingTitles := existing.map lowerName
    let p := enhancedPrompt prompt existing
    let newResult := gen p
    let newMetas := filterNewMetas newResult existingIds existingTitles
    let combined := existing ++ newMetas
    { returned := combined, stored := some combined, accepted := newMetas,
      promptUsed := some p, genCalls := 1 }

/-- Repeated durable-mode accumulation: feed a sequence of generation steps
(one opaque generator per step) through `cachedCatalogRedis`, threading the
cached value; a step that performs no write leaves the cached value
unchanged. -/
def runCatalog (maxCatalogEntries : Nat) (prompt : String)
    (cached : Option (List MetaItem)) : List (String → List MetaItem) → Option (List MetaItem)
  | [] => cached
  | gen :: gens =>
    let step := cachedCatalogRedis maxCatalogEntries prompt gen cached 0
    runCatalog maxCatalogEntries prompt
      (match step.stored with
       | some v => some v
       | none => cached) gens

/-- Dedup invariant predicate: no two items share an `id` and no two items
share a lowercased `name`. -/
def NoDupKeys (l : List MetaItem) : Prop :=
  l.Pairwise (fun a b => a.id ≠ b.id ∧ lowerName a ≠ lowerName b)

instance (l : List MetaItem) : Decidable (NoDupKeys l) := by
  unfold NoDupKeys; infer_instance

/-- Bounded in-process store (`MemoryBackend._store`): an `OrderedDict`
modelled as a list of `(key, expiry, value)` bindings in recency order, the
head being the least recently used. -/
abbrev MemStore (V : Type) : Type := List (String × Nat × V)

/-- Lookup of a key in the ordered map. -/
def memLookup {V : Type} : MemStore V → String → Option (Nat × V)
  | [], _ => none
  | (k, e, v) :: rest, key => if k = key then some (e, v) else memLookup rest key

/-- Model of `OrderedDict.move_to_end`: the binding for `key`, when present,
moves to the end of the iteration order. -/
def moveToEnd {V : Type} (store : MemStore V) (key : String) : MemStore V :=
  match memLookup store key with
  | none => store
  | some (e, v) => store.filter (fun kv => kv.1 ≠ key) ++ [(key, e, v)]

/-- Model of the capacity loop of `MemoryBackend.set`
(src/app/services/cache.py lines 127-129): while the store exceeds
`maxsize`, pop the least-recently-used head. -/
def capTrim {V : Type} (maxsize : Nat) : MemStore V → MemStore V
  | [] => []
  | x :: rest => if rest.length + 1 > maxsize then capTrim maxsize rest else x :: rest

/-- Model of `MemoryBackend.get` (src/app/services/cache.py lines 108-120):
absent key yields `none`; an expired entry (strictly past its expiry) is
deleted and yields `none`; otherwise the entry moves to the most-recent end
and its value is returned. Returns the value and the updated store. -/
def memoryGet {V : Type} (now : Nat) (store : MemStore V) (key : String) :
    Option V × MemStore V :=
  match memLookup store key with
  | none => (none, store)
  | some (e, v) =>
    if now > e then (none, store.filter (fun kv => kv.1 ≠ key))
    else (some v, moveToEnd store key)

/-- Model of `MemoryBackend.set` (src/app/services/cache.py lines 122-129):
overwrite the binding, place it at the most-recent end with expiry
`now + ttl`, then evict least-recently-used heads while over capacity. -/
def memorySet {V : Type} (now : Nat) (store : MemStore V) (key : String)
    (value : V) (ttl maxsize : Nat) : MemStore V :=
  capTrim maxsize (store.filter (fun kv => kv.1 ≠ key) ++ [(key, now + ttl, value)])

/-- Observable outcome of one degraded-mode (in-memory backend) catalog
call: the returned items, the store after the call, and the number of
generator invocations. -/
structure LruCallResult where
  returned : List MetaItem
  store : MemStore (List MetaItem)
  genCalls : Nat
deriving DecidableEq, Repr

/-- Model of the non-Redis branch of `_cached_catalog`
(src/app/api/stremio.py lines 431-457): a stored value with at least one
item is returned unchanged (zero generator calls); otherwise the generator
runs once on the base prompt, the result is stored under the catalog TTL,
and the fresh batch is returned. The `skip` parameter is received as the
source receives it and appears only in debug logging there. -/
def cachedCatalogLru (key prompt : String) (gen : String → List MetaItem)
    (store : MemStore (List MetaItem)) (now catalogTtl maxsize skip : Nat) :
    LruCallResult :=
  match memoryGet now store key with
  | (some metas, store1) =>
    if metas.length > 0 then
      { returned := metas, store := store1, genCalls := 0 }
    else
      let result := gen prompt
      { returned := result,
        store := memorySet now store1 key result catalogTtl maxsize, genCalls := 1 }
  | (none, store1) =>
    let result := gen prompt
    { returned := result,
      store := memorySet now store1 key result catalogTtl maxsize, genCalls := 1 }

/-- Outcome of a call into the Redis client: success, or a raised
`aioredis.RedisError` (carrying its message). -/
inductive RedisOutcome (α : Type) where
  | ok : α → RedisOutcome α
  | redisError : String → RedisOutcome α
deriving DecidableEq, Repr

/-- Model of `RedisBackend.get` (src/app/services/cache.py lines 65-73):
`raw` is the outcome of `self._redis.get(key)` (a redis error, absent, or a
serialized string) and `decode` models `json.loads`, yielding `none` when it
raises `JSONDecodeError`. Both failure modes are caught and converted to
`none`; the function is total, so no failure propagates to the caller. -/
def redisBackendGet {V : Type} (raw : RedisOutcome (Option String))
    (decode : String → Option V) : Option V :=
  match raw with
  | .redisError _ => none
  | .ok none => none
  | .ok (some s) => decode s

/-- Model of `RedisBackend.set` (src/app/services/cache.py lines 75-80):
`serialized` is the outcome of `json.dumps` (`none` when it raises) and
`write` is the outcome of `self._redis.setex`. The result is the string
actually written to the backend, `none` when the write was dropped; both
failure modes are caught, so no failure propagates to the caller. -/
def redisBackendSet (serialized : Option String)
    (write : String → RedisOutcome Unit) : Option String :=
  match serialized with
  | none => none
  | some s =>
    match write s with
    | .redisError _ => none
    | .ok _ => some s

/-- Content type enum (src/app/models/enums.py). -/
inductive ContentType where
  | movie
  | series
deriving DecidableEq, Repr

/-- String value of a content type, as used to build the rstrip character
set in `_cached_catalog`. -/
def ContentType.value : ContentType → String
  | .movie => "movie"
  | .series => "series"

/-- Cache TTL of a catalog entry in `CATALOG_PROMPTS`: either the dynamic
next-Tuesday callable, or a fixed duration. The fixed durations are recorded
in milliseconds so that the float literal `604.800` (seconds) of the source
is represented exactly. -/
inductive CacheTtl where
  | nextTuesday : CacheTtl
  | fixedMillis : Nat → CacheTtl
deriving DecidableEq, Repr

/-- One entry of the `CATALOG_PROMPTS` table
(src/app/services/__init__.py lines 30-51). -/
structure CatalogConfig where
  title : String
  prompt : String
  cacheTtl : CacheTtl
deriving DecidableEq, Repr

/-- Association-list lookup keyed by strings, modelling Python dict
lookup. -/
def lookupKey {α : Type} : List (String × α) → String → Option α
  | [], _ => none
  | (k, v) :: rest, key => if k = key then some v else lookupKey rest key

/-- The `CATALOG_PROMPTS` table (src/app/services/__init__.py). -/
def CATALOG_PROMPTS : List (String × CatalogConfig) :=
  [ ("trending",
     { title := "Trending this week",
       prompt := "Show me what's trending this week on streaming services (priority), but include notable on-demand rentals or Blu-ray releases if relevant",
       cacheTtl := CacheTtl.nextTuesday }),
    ("new_releases",
     { title := "New releases",
       prompt := "Show me the latest new releases available to stream right now; also include notable on-demand rentals or Blu-ray releases when applicable",
       cacheTtl := CacheTtl.fixedMillis 172800000 }),
    ("critics_picks",
     { title := "Critics' picks",
       prompt := "Show me highly-rated titles from critics and award winners that are available on streaming services; optionally include notable on-demand or Blu-ray if streaming is unavailable",
       cacheTtl := CacheTtl.fixedMillis 604800 }),
    ("hidden_gems",
     { title := "Hidden gems",
       prompt := "Show me underrated or lesser-known titles worth watching on streaming services; if not streaming, include notable on-demand or Blu-ray",
       cacheTtl := CacheTtl.fixedMillis 1209600000 }) ]

/-- Model of the catalog configuration resolution of `_cached_catalog`
(src/app/api/stremio.py line 418):
`CATALOG_PROMPTS.get(catalog_id.rstrip("_" + content_type.value), CATALOG_PROMPTS.get("trending"))`. -/
def resolveCatalogConfig (catalogId : String) (contentType : ContentType) :
    Option CatalogConfig :=
  match lookupKey CATALOG_PROMPTS (pyRstrip catalogId ("_" ++ contentType.value)) with
  | some cfg => some cfg
  | none => lookupKey CATALOG_PROMPTS "trending"

set_option maxRecDepth 4000

theorem cachedCatalogRedis_cap_eq {maxE : Nat} {cached : Option (List MetaItem)}
    (prompt : String) (gen : String → List MetaItem) (skip : Nat)
    (h : (normalizeCached cached).length ≥ maxE) :
    cachedCatalogRedis maxE prompt gen cached skip =
      { returned := normalizeCached cached, stored := none, accepted := [],
        promptUsed := none, genCalls := 0 } := by
  unfold cachedCatalogRedis
  rw [if_pos h]

theorem cachedCatalogRedis_lt_eq {maxE : Nat} {cached : Option (List MetaItem)}
    (prompt : String) (gen : String → List MetaItem) (skip : Nat)
    (h : (normalizeCached cached).length < maxE) :
    cachedCatalogRedis maxE prompt gen cached skip =
      { returned := normalizeCached cached ++
          filterNewMetas (gen (enhancedPrompt prompt (normalizeCached cached)))
            ((normalizeCached cached).map (fun m => m.id))
            ((normalizeCached cached).map lowerName),
        stored := some (normalizeCached cached ++
          filterNewMetas (gen (enhancedPrompt prompt (normalizeCached cached)))
            ((normalizeCached cached).map (fun m => m.id))
            ((normalizeCached cached).map lowerName)),
        accepted := filterNewMetas (gen (enhancedPrompt prompt (normalizeCached cached)))
          ((normalizeCached cached).map (fun m => m.id))
          ((normalizeCached cached).map lowerName),
        promptUsed := some (enhancedPrompt prompt (normalizeCached cached)),
        genCalls := 1 } := by
  unfold cachedCatalogRedis
  rw [if_neg (Nat.not_le.mpr h)]

theorem mem_filterNewMetas {batch : List MetaItem} {ids : List (Option String)}
    {titles : List String} {m : MetaItem}
    (h : m ∈ filterNewMetas batch ids titles) :
    m.id ∉ ids ∧ lowerName m ∉ titles := by
  induction batch generalizing ids titles with
  | nil => simp [filterNewMetas] at h
  | cons meta rest ih =>
    by_cases hc : meta.id ∉ ids ∧ lowerName meta ∉ titles
    · rw [filterNewMetas, if_pos hc] at h
      rcases List.mem_cons.mp h with rfl | hm
      · exact hc
      · have hrec := ih hm
        exact ⟨fun hid => hrec.1 (List.mem_cons_of_mem _ hid),
               fun ht => hrec.2 (List.mem_cons_of_mem _ ht)⟩
    · rw [filterNewMetas, if_neg hc] at h
      exact ih h

theorem noDupKeys_filterNewMetas (batch : List MetaItem) (ids : List (Option String))
    (titles : List String) : NoDupKeys (filterNewMetas batch ids titles) := by
  induction batch generalizing ids titles with
  | nil => exact List.Pairwise.nil
  | cons meta rest ih =>
    by_cases hc : meta.id ∉ ids ∧ lowerName meta ∉ titles
    · rw [filterNewMetas, if_pos hc]
      refine List.Pairwise.cons ?_ (ih _ _)
      intro b hb
      have hrec := mem_filterNewMetas hb
      refine ⟨fun he => hrec.1 (List.mem_cons.mpr (Or.inl he.symm)),
              fun he => hrec.2 (List.mem_cons.mpr (Or.inl he.symm))⟩
    · rw [filterNewMetas, if_neg hc]
      exact ih _ _

theorem filterNewMetas_sublist (batch : List MetaItem) (ids : List (Option String))
    (titles : List String) : (filterNewMetas batch ids titles).Sublist batch := by
  induction batch generalizing ids titles with
  | nil => simp [filterNewMetas]
  | cons meta rest ih =>
    by_cases hc : meta.id ∉ ids ∧ lowerName meta ∉ titles
    · rw [filterNewMetas, if_pos hc]
      exact (ih _ _).cons₂ meta
    · rw [filterNewMetas, if_neg hc]
      exact (ih _ _).cons meta

theorem noDupKeys_append_filterNewMetas (existing batch : List MetaItem)
    (h : NoDupKeys existing) :
    NoDupKeys (existing ++ filterNewMetas batch (existing.map (fun m => m.id))
      (existing.map lowerName)) := by
  rw [NoDupKeys, List.pairwise_append]
  refine ⟨h, noDupKeys_filterNewMetas _ _ _, ?_⟩
  intro a ha b hb
  have hmem := mem_filterNewMetas hb
  refine ⟨fun he => hmem.1 ?_, fun he => hmem.2 ?_⟩
  · exact he ▸ List.mem_map_of_mem _ ha
  · exact he ▸ List.mem_map_of_mem _ ha

theorem noDupKeys_normalizeCached_some (l : List MetaItem) (h : NoDupKeys l) :
    NoDupKeys (normalizeCached (some l)) := by
  have heq : normalizeCached (some l) = if l.length > 0 then l else [] := rfl
  rw [heq]
  split
  · exact h
  · exact List.Pairwise.nil

theorem runCatalog_noDupKeys (maxE : Nat) (prompt : String)
    (gens : List (String → List MetaItem)) :
    ∀ cached : Option (List MetaItem), NoDupKeys (normalizeCached cached) →
      NoDupKeys (normalizeCached (runCatalog maxE prompt cached gens)) := by
  induction gens with
  | nil => intro cached h; exact h
  | cons gen gens ih =>
    intro cached h
    rw [runCatalog]
    by_cases hcap : (normalizeCached cached).length ≥ maxE
    · rw [cachedCatalogRedis_cap_eq prompt gen 0 hcap]
      exact ih cached h
    · rw [cachedCatalogRedis_lt_eq prompt gen 0 (Nat.lt_of_not_le hcap)]
      exact ih _ (noDupKeys_normalizeCached_some _
        (noDupKeys_append_filterNewMetas _ _ h))

theorem capTrim_eq_drop {V : Type} (maxsize : Nat) :
    ∀ s : MemStore V, capTrim maxsize s = s.drop (s.length - maxsize) := by
  intro s
  induction s with
  | nil => simp [capTrim]
  | cons x rest ih =>
    rw [capTrim]
    by_cases h : rest.length + 1 > maxsize
    · rw [if_pos h, ih]
      have hle : maxsize ≤ rest.length := Nat.lt_succ_iff.mp h
      have : (x :: rest).length - maxsize = (rest.length - maxsize) + 1 := by
        simp only [List.length_cons]
        omega
      rw [this, List.drop_succ_cons]
    · rw [if_neg h]
      have : (x :: rest).length - maxsize = 0 := by
        simp only [List.length_cons]
        omega
      rw [this, List.drop_zero]

theorem memLookup_eq_none_of_keys_ne {V : Type} {l : MemStore V} {key : String}
    (h : ∀ x ∈ l, x.1 ≠ key) : memLookup l key = none := by
  induction l with
  | nil => rfl
  | cons x rest ih =>
    obtain ⟨k, e, v⟩ := x
    rw [memLookup, if_neg (h (k, e, v) (List.mem_cons_self _ _))]
    exact ih fun y hy => h y (List.mem_cons_of_mem _ hy)

theorem memLookup_append_of_keys_ne {V : Type} {l₁ : MemStore V} (l₂ : MemStore V)
    {key : String} (h : ∀ x ∈ l₁, x.1 ≠ key) :
    memLookup (l₁ ++ l₂) key = memLookup l₂ key := by
  induction l₁ with
  | nil => rfl
  | cons x rest ih =>
    obtain ⟨k, e, v⟩ := x
    rw [List.cons_append, memLookup, if_neg (h (k, e, v) (List.mem_cons_self _ _))]
    exact ih fun y hy => h y (List.mem_cons_of_mem _ hy)

theorem keys_ne_of_mem_filter {V : Type} {store : MemStore V} {key : String} :
    ∀ x ∈ store.filter (fun kv => kv.1 ≠ key), x.1 ≠ key := by
  intro x hx
  exact of_decide_eq_true (List.mem_filter.mp hx).2

theorem memLookup_memorySet {V : Type} (now : Nat) (store : MemStore V)
    (key : String) (v : V) (ttl : Nat) {maxsize : Nat} (hmax : 1 ≤ maxsize) :
    memLookup (memorySet now store key v ttl maxsize) key = some (now + ttl, v) := by
  unfold memorySet
  rw [capTrim_eq_drop]
  set l := store.filter (fun kv => kv.1 ≠ key) with hl
  have hlen : (l ++ [(key, now + ttl, v)]).length = l.length + 1 := by
    simp
  rw [hlen]
  have hk : l.length + 1 - maxsize ≤ l.length := by omega
  rw [List.drop_append_of_le_length hk]
  rw [memLookup_append_of_keys_ne _ (fun x hx => keys_ne_of_mem_filter x (List.mem_of_mem_drop hx))]
  rw [memLookup, if_pos rfl]

theorem memLookup_filter_ne {V : Type} (store : MemStore V) (key : String) :
    memLookup (store.filter (fun kv => kv.1 ≠ key)) key = none :=
  memLookup_eq_none_of_keys_ne keys_ne_of_mem_filter

/-- C1 (counterexample): starting from an empty accumulator with
`max_catalog_entries = 1`, one generation whose batch holds two distinct
items stores and returns a two-item accumulator, exceeding the cap. -/
theorem catalog_cap_counterexample :
    (cachedCatalogRedis 1 "p"
      (fun _ => [{ id := some "1", name := some "A" }, { id := some "2", name := some "B" }])
      none 0).stored =
      some [{ id := some "1", name := some "A" }, { id := some "2", name := some "B" }] ∧
    ¬ (cachedCatalogRedis 1 "p"
      (fun _ => [{ id := some "1", name := some "A" }, { id := some "2", name := some "B" }])
      none 0).returned.length ≤ 1 := by
  decide

/-- C1 (amended): once the accumulator holds at least `max_catalog_entries`
items, the call returns the existing items with no write and zero generator
invocations; below the cap one generator invocation occurs and the stored
accumulator may exceed the cap, but by no more than the generated batch:
its length is at most `max_catalog_entries - 1` plus the batch length. -/
theorem catalog_cap_amended (maxE : Nat) (prompt : String)
    (gen : String → List MetaItem) (cached : Option (List MetaItem)) (skip : Nat) :
    ((normalizeCached cached).length ≥ maxE →
      (cachedCatalogRedis maxE prompt gen cached skip).returned = normalizeCached cached ∧
      (cachedCatalogRedis maxE prompt gen cached skip).genCalls = 0 ∧
      (cachedCatalogRedis maxE prompt gen cached skip).stored = none) ∧
    ((normalizeCached cached).length < maxE →
      (cachedCatalogRedis maxE prompt gen cached skip).genCalls = 1 ∧
      (cachedCatalogRedis maxE prompt gen cached skip).returned.length ≤
        maxE - 1 + (gen (enhancedPrompt prompt (normalizeCached cached))).length) := by
  constructor
  · intro h
    rw [cachedCatalogRedis_cap_eq prompt gen skip h]
    exact ⟨rfl, rfl, rfl⟩
  · intro h
    rw [cachedCatalogRedis_lt_eq prompt gen skip h]
    refine ⟨rfl, ?_⟩
    have hsub := (filterNewMetas_sublist (gen (enhancedPrompt prompt (normalizeCached cached)))
      ((normalizeCached cached).map (fun m => m.id))
      ((normalizeCached cached).map lowerName)).length_le
    have hex : (normalizeCached cached).length ≤ maxE - 1 := Nat.le_pred_of_lt h
    simp only [List.length_append]
    omega

/-- C1 (witness for the amended theorem). -/
theorem catalog_cap_amended_witness :
    ((cachedCatalogRedis 2 "p" (fun _ => [{ id := some "3", name := some "C" }])
        (some [{ id := some "1", name := some "A" }, { id := some "2", name := some "B" }]) 0).returned =
      normalizeCached (some [{ id := some "1", name := some "A" }, { id := some "2", name := some "B" }]) ∧
     (cachedCatalogRedis 2 "p" (fun _ => [{ id := some "3", name := some "C" }])
        (some [{ id := some "1", name := some "A" }, { id := some "2", name := some "B" }]) 0).genCalls = 0 ∧
     (cachedCatalogRedis 2 "p" (fun _ => [{ id := some "3", name := some "C" }])
        (some [{ id := some "1", name := some "A" }, { id := some "2", name := some "B" }]) 0).stored = none) ∧
    ((cachedCatalogRedis 2 "p" (fun _ => [{ id := some "3", name := some "C" }])
        (some [{ id := some "1", name := some "A" }]) 0).genCalls = 1 ∧
     (cachedCatalogRedis 2 "p" (fun _ => [{ id := some "3", name := some "C" }])
        (some [{ id := some "1", name := some "A" }]) 0).returned.length ≤
       2 - 1 + ((fun _ => [({ id := some "3", name := some "C" } : MetaItem)])
         (enhancedPrompt "p" (normalizeCached (some [{ id := some "1", name := some "A" }])))).length) :=
  ⟨(catalog_cap_amended 2 "p" (fun _ => [{ id := some "3", name := some "C" }])
      (some [{ id := some "1", name := some "A" }, { id := some "2", name := some "B" }]) 0).1
      (by decide),
   (catalog_cap_amended 2 "p" (fun _ => [{ id := some "3", name := some "C" }])
      (some [{ id := some "1", name := some "A" }]) 0).2 (by decide)⟩

/-- C2: starting from a duplicate-free accumulator, any sequence of
generation batches leaves the accumulator free of items sharing an `id` or a
lowercased `name`; moreover a generated item colliding with the existing set
on either key is never among the accepted items of a step. -/
theorem catalog_dedup_invariant :
    (∀ (maxE : Nat) (prompt : String) (cached : Option (List MetaItem))
        (gens : List (String → List MetaItem)),
        NoDupKeys (normalizeCached cached) →
        NoDupKeys (normalizeCached (runCatalog maxE prompt cached gens))) ∧
    (∀ (maxE : Nat) (prompt : String) (gen : String → List MetaItem)
        (cached : Option (List MetaItem)) (skip : Nat) (m e : MetaItem),
        e ∈ normalizeCached cached →
        (e.id = m.id ∨ lowerName e = lowerName m) →
        m ∉ (cachedCatalogRedis maxE prompt gen cached skip).accepted) := by
  constructor
  · intro maxE prompt cached gens h
    exact runCatalog_noDupKeys maxE prompt gens cached h
  · intro maxE prompt gen cached skip m e he hcol hm
    by_cases hcap : (normalizeCached cached).length ≥ maxE
    · rw [cachedCatalogRedis_cap_eq prompt gen skip hcap] at hm
      exact List.not_mem_nil m hm
    · rw [cachedCatalogRedis_lt_eq prompt gen skip (Nat.lt_of_not_le hcap)] at hm
      have hmem := mem_filterNewMetas hm
      rcases hcol with hid | hname
      · exact hmem.1 (hid ▸ List.mem_map_of_mem _ he)
      · exact hmem.2 (hname ▸ List.mem_map_of_mem _ he)

/-- C2 (witness). -/
theorem catalog_dedup_invariant_witness :
    NoDupKeys (normalizeCached (runCatalog 5 "p"
      (some [{ id := some "1", name := some "A" }])
      [fun _ => [{ id := some "1", name := some "B" }, { id := some "2", name := some "A" },
                 { id := some "3", name := some "C" }]])) ∧
    ({ id := some "1", name := some "X" } : MetaItem) ∉
      (cachedCatalogRedis 5 "p" (fun _ => [{ id := some "1", name := some "X" }])
        (some [{ id := some "1", name := some "A" }]) 0).accepted :=
  ⟨catalog_dedup_invariant.1 5 "p" (some [{ id := some "1", name := some "A" }])
      [fun _ => [{ id := some "1", name := some "B" }, { id := some "2", name := some "A" },
                 { id := some "3", name := some "C" }]] (by decide),
   catalog_dedup_invariant.2 5 "p" (fun _ => [{ id := some "1", name := some "X" }])
      (some [{ id := some "1", name := some "A" }]) 0
      { id := some "1", name := some "X" } { id := some "1", name := some "A" }
      (by decide) (Or.inl rfl)⟩

/-- C3: every accumulation step returns the existing items first, unchanged
and in order, followed by the accepted new items, which form a subsequence
of the generated batch (generator order preserved). -/
theorem catalog_order_invariant (maxE : Nat) (prompt : String)
    (gen : String → List MetaItem) (cached : Option (List MetaItem)) (skip : Nat) :
    (cachedCatalogRedis maxE prompt gen cached skip).returned =
      normalizeCached cached ++ (cachedCatalogRedis maxE prompt gen cached skip).accepted ∧
    (cachedCatalogRedis maxE prompt gen cached skip).accepted.Sublist
      (match (cachedCatalogRedis maxE prompt gen cached skip).promptUsed with
       | some p => gen p
       | none => []) := by
  by_cases hcap : (normalizeCached cached).length ≥ maxE
  · rw [cachedCatalogRedis_cap_eq prompt gen skip hcap]
    exact ⟨(List.append_nil _).symm, List.Sublist.refl _⟩
  · rw [cachedCatalogRedis_lt_eq prompt gen skip (Nat.lt_of_not_le hcap)]
    exact ⟨rfl, filterNewMetas_sublist _ _ _⟩

/-- C5: the numeric skip offset does not influence either branch of the
catalog operation, and the durable branch returns the full combined list (it
equals the value written back whenever a write happens: never a slice or an
increment). -/
theorem catalog_skip_independent (maxE : Nat) (prompt key : String)
    (gen : String → List MetaItem) (cached : Option (List MetaItem))
    (store : MemStore (List MetaItem)) (now ttl maxsize skip skip' : Nat) :
    cachedCatalogRedis maxE prompt gen cached skip =
      cachedCatalogRedis maxE prompt gen cached skip' ∧
    cachedCatalogLru key prompt gen store now ttl maxsize skip =
      cachedCatalogLru key prompt gen store now ttl maxsize skip' ∧
    ((cachedCatalogRedis maxE prompt gen cached skip).stored = none ∨
     (cachedCatalogRedis maxE prompt gen cached skip).stored =
       some (cachedCatalogRedis maxE prompt gen cached skip).returned) := by
  refine ⟨rfl, rfl, ?_⟩
  by_cases hcap : (normalizeCached cached).length ≥ maxE
  · rw [cachedCatalogRedis_cap_eq prompt gen skip hcap]
    exact Or.inl rfl
  · rw [cachedCatalogRedis_lt_eq prompt gen skip (Nat.lt_of_not_le hcap)]
    exact Or.inr rfl

theorem memoryGet_absent {V : Type} {store : MemStore V} {key : String} {now : Nat}
    (hl : memLookup store key = none) : memoryGet now store key = (none, store) := by
  unfold memoryGet
  rw [hl]

theorem memoryGet_live {V : Type} {store : MemStore V} {key : String} {e : Nat}
    {v : V} {now : Nat} (hl : memLookup store key = some (e, v)) (h : ¬ now > e) :
    memoryGet now store key = (some v, moveToEnd store key) := by
  unfold memoryGet
  rw [hl]
  exact if_neg h

theorem memoryGet_expired {V : Type} {store : MemStore V} {key : String} {e : Nat}
    {v : V} {now : Nat} (hl : memLookup store key = some (e, v)) (h : now > e) :
    memoryGet now store key = (none, store.filter (fun kv => kv.1 ≠ key)) := by
  unfold memoryGet
  rw [hl]
  exact if_pos h

theorem cachedCatalogLru_hit {key prompt : String} {gen : String → List MetaItem}
    {store : MemStore (List MetaItem)} {now ttl maxsize skip : Nat}
    {metas : List MetaItem} {st1 : MemStore (List MetaItem)}
    (hg : memoryGet now store key = (some metas, st1)) (hlen : metas.length > 0) :
    cachedCatalogLru key prompt gen store now ttl maxsize skip =
      { returned := metas, store := st1, genCalls := 0 } := by
  unfold cachedCatalogLru
  rw [hg]
  exact if_pos hlen

theorem cachedCatalogLru_missNone {key prompt : String} {gen : String → List MetaItem}
    {store : MemStore (List MetaItem)} {now ttl maxsize skip : Nat}
    {st1 : MemStore (List MetaItem)}
    (hg : memoryGet now store key = (none, st1)) :
    cachedCatalogLru key prompt gen store now ttl maxsize skip =
      { returned := gen prompt,
        store := memorySet now st1 key (gen prompt) ttl maxsize, genCalls := 1 } := by
  unfold cachedCatalogLru
  rw [hg]

/-- C4 (counterexample): with the in-memory backend, a generator returning
an empty batch is invoked again by the second call within the TTL window (an
empty stored value counts as a miss), so the generator runs twice. -/
theorem lru_idempotence_counterexample :
    (cachedCatalogLru "catalog:trending_movie" "p" (fun _ => []) [] 0 100 3 0).genCalls +
      (cachedCatalogLru "catalog:trending_movie" "p" (fun _ => [])
        (cachedCatalogLru "catalog:trending_movie" "p" (fun _ => []) [] 0 100 3 0).store
        0 100 3 0).genCalls = 2 ∧
    ¬ ((cachedCatalogLru "catalog:trending_movie" "p" (fun _ => []) [] 0 100 3 0).genCalls +
      (cachedCatalogLru "catalog:trending_movie" "p" (fun _ => [])
        (cachedCatalogLru "catalog:trending_movie" "p" (fun _ => []) [] 0 100 3 0).store
        0 100 3 0).genCalls ≤ 1) := by
  decide

/-- C4 (amended): with the in-memory backend, starting from a catalog with
no cached entry, when the first generation returns at least one item the two
sequential calls within the TTL window return that same batch, the generator
runs exactly once across both calls, and the second call appends nothing. -/
theorem lru_idempotence_amended (key prompt : String) (gen : String → List MetaItem)
    (store : MemStore (List MetaItem)) (t1 t2 ttl maxsize skip1 skip2 : Nat)
    (hmax : 1 ≤ maxsize) (hmiss : memLookup store key = none)
    (hwin : ¬ t2 > t1 + ttl) (hne : gen prompt ≠ []) :
    (cachedCatalogLru key prompt gen store t1 ttl maxsize skip1).returned = gen prompt ∧
    (cachedCatalogLru key prompt gen
        (cachedCatalogLru key prompt gen store t1 ttl maxsize skip1).store
        t2 ttl maxsize skip2).returned = gen prompt ∧
    (cachedCatalogLru key prompt gen store t1 ttl maxsize skip1).genCalls = 1 ∧
    (cachedCatalogLru key prompt gen
        (cachedCatalogLru key prompt gen store t1 ttl maxsize skip1).store
        t2 ttl maxsize skip2).genCalls = 0 := by
  have h1 : cachedCatalogLru key prompt gen store t1 ttl maxsize skip1 =
      { returned := gen prompt,
        store := memorySet t1 store key (gen prompt) ttl maxsize, genCalls := 1 } :=
    cachedCatalogLru_missNone (memoryGet_absent hmiss)
  have h2 : cachedCatalogLru key prompt gen
      (memorySet t1 store key (gen prompt) ttl maxsize) t2 ttl maxsize skip2 =
      { returned := gen prompt,
        store := moveToEnd (memorySet t1 store key (gen prompt) ttl maxsize) key,
        genCalls := 0 } :=
    cachedCatalogLru_hit
      (memoryGet_live (memLookup_memorySet t1 store key (gen prompt) ttl hmax) hwin)
      (List.length_pos.mpr hne)
  rw [h1, h2]
  exact ⟨rfl, rfl, rfl, rfl⟩

/-- C4 (witness for the amended theorem). -/
theorem lru_idempotence_amended_witness :
    (cachedCatalogLru "k" "p" (fun _ => [{ id := some "1", name := some "A" }])
      [] 0 100 3 0).returned = [{ id := some "1", name := some "A" }] ∧
    (cachedCatalogLru "k" "p" (fun _ => [{ id := some "1", name := some "A" }])
      (cachedCatalogLru "k" "p" (fun _ => [{ id := some "1", name := some "A" }])
        [] 0 100 3 0).store 1 100 3 0).returned =
      [{ id := some "1", name := some "A" }] ∧
    (cachedCatalogLru "k" "p" (fun _ => [{ id := some "1", name := some "A" }])
      [] 0 100 3 0).genCalls = 1 ∧
    (cachedCatalogLru "k" "p" (fun _ => [{ id := some "1", name := some "A" }])
      (cachedCatalogLru "k" "p" (fun _ => [{ id := some "1", name := some "A" }])
        [] 0 100 3 0).store 1 100 3 0).genCalls = 0 :=
  lru_idempotence_amended "k" "p" (fun _ => [{ id := some "1", name := some "A" }])
    [] 0 1 100 3 0 0 (by decide) rfl (by decide) (by decide)

/-- C6: an absent cached value and a cached value with zero items are both
treated as misses (with a positive configured cap): the durable branch
invokes the generator, and so does the in-memory branch whenever its lookup
yields nothing or an empty item list, so an empty generation is retried on
the next request. -/
theorem catalog_empty_is_miss :
    (∀ (maxE : Nat) (prompt : String) (gen : String → List MetaItem) (skip : Nat),
        0 < maxE →
        (cachedCatalogRedis maxE prompt gen none skip).genCalls = 1 ∧
        (cachedCatalogRedis maxE prompt gen (some []) skip).genCalls = 1) ∧
    (∀ (key prompt : String) (gen : String → List MetaItem)
        (store : MemStore (List MetaItem)) (now ttl maxsize skip : Nat),
        (memoryGet now store key).1 = none ∨ (memoryGet now store key).1 = some [] →
        (cachedCatalogLru key prompt gen store now ttl maxsize skip).genCalls = 1) := by
  constructor
  · intro maxE prompt gen skip hpos
    constructor
    · rw [cachedCatalogRedis_lt_eq prompt gen skip (by simpa using hpos)]
    · rw [cachedCatalogRedis_lt_eq prompt gen skip (by simpa using hpos)]
  · intro key prompt gen store now ttl maxsize skip h
    rcases hg : memoryGet now store key with ⟨o, st⟩
    rw [hg] at h
    unfold cachedCatalogLru
    rw [hg]
    rcases h with h | h
    · simp only at h
      subst h
      rfl
    · simp only at h
      subst h
      rfl

/-- C6 (witness). -/
theorem catalog_empty_is_miss_witness :
    (cachedCatalogRedis 100 "p" (fun _ => []) none 0).genCalls = 1 ∧
    (cachedCatalogLru "k" "p" (fun _ => []) [] 0 100 256 0).genCalls = 1 :=
  ⟨(catalog_empty_is_miss.1 100 "p" (fun _ => []) 0 (by decide)).1,
   catalog_empty_is_miss.2 "k" "p" (fun _ => []) [] 0 100 256 0 (Or.inl rfl)⟩

/-- C7: every failure mode of the durable backend is absorbed: a redis error
or an absent value on read yields `none`, a read whose payload fails to
deserialize yields `none`, a value that fails to serialize is never written,
and a redis error on write drops the write; the operations are total, so no
backend failure propagates as an exception. -/
theorem redis_fail_open :
    (∀ (V : Type) (msg : String) (decode : String → Option V),
        redisBackendGet (RedisOutcome.redisError msg) decode = none) ∧
    (∀ (V : Type) (decode : String → Option V),
        redisBackendGet (RedisOutcome.ok none) decode = none) ∧
    (∀ (V : Type) (s : String) (decode : String → Option V),
        decode s = none → redisBackendGet (RedisOutcome.ok (some s)) decode = none) ∧
    (∀ write : String → RedisOutcome Unit, redisBackendSet none write = none) ∧
    (∀ (s msg : String),
        redisBackendSet (some s) (fun _ => RedisOutcome.redisError msg) = none) := by
  refine ⟨fun V msg decode => rfl, fun V decode => rfl, fun V s decode h => h,
    fun write => rfl, fun s msg => rfl⟩

/-- C7 (witness for the deserialization-failure conjunct). -/
theorem redis_fail_open_witness :
    redisBackendGet (RedisOutcome.ok (some "x")) (fun _ => (none : Option Nat)) = none :=
  redis_fail_open.2.2.1 Nat "x" (fun _ => none) rfl

/-- C8: inserting a fresh key into a bounded store that is exactly at
capacity evicts exactly the head (the least recently used binding) and
appends the new binding at the most-recent end; concretely, with
`maxsize = 3`, after set k1, set k2, set k3, get k1, set k4, the key k2 is
absent while k1, k3 and k4 are present. -/
theorem lru_eviction :
    (∀ (V : Type) (store : MemStore V) (now : Nat) (key : String) (v : V)
        (ttl maxsize : Nat),
        1 ≤ maxsize → store.length = maxsize → (∀ x ∈ store, x.1 ≠ key) →
        memorySet now store key v ttl maxsize = store.drop 1 ++ [(key, now + ttl, v)]) ∧
    (let s3 : MemStore Nat :=
       memorySet 0 (memorySet 0 (memorySet 0 [] "k1" 1 100 3) "k2" 2 100 3) "k3" 3 100 3
     let s5 : MemStore Nat := memorySet 0 (memoryGet 0 s3 "k1").2 "k4" 4 100 3
     (memoryGet 0 s5 "k2").1 = none ∧ (memoryGet 0 s5 "k1").1 = some 1 ∧
     (memoryGet 0 s5 "k3").1 = some 3 ∧ (memoryGet 0 s5 "k4").1 = some 4) := by
  constructor
  · intro V store now key v ttl maxsize hmax hlen hkeys
    unfold memorySet
    rw [List.filter_eq_self.mpr (fun x hx => decide_eq_true (hkeys x hx))]
    rw [capTrim_eq_drop]
    have h1 : (store ++ [(key, now + ttl, v)]).length - maxsize = 1 := by
      simp only [List.length_append, List.length_cons, List.length_nil, hlen]
      omega
    rw [h1, List.drop_append_of_le_length (by omega : 1 ≤ store.length)]
  · decide

/-- C8 (witness for the general eviction conjunct). -/
theorem lru_eviction_witness :
    memorySet 0 [("a", 5, (1 : Nat)), ("b", 5, 2)] "c" 4 7 2 =
      [("b", 5, (2 : Nat)), ("c", 7, 4)] :=
  lru_eviction.1 Nat [("a", 5, 1), ("b", 5, 2)] 0 "c" 4 7 2 (by decide) (by decide)
    (by decide)

/-- C9: a value stored in the bounded backend with TTL `ttl` at time `now0`
is returned by `get` at every instant up to and including `now0 + ttl`, and
at every later instant `get` removes the entry and returns absent. -/
theorem ttl_lazy_expiry (V : Type) (store : MemStore V) (key : String) (v : V)
    (now0 ttl t maxsize : Nat) (hmax : 1 ≤ maxsize) :
    (¬ t > now0 + ttl →
      (memoryGet t (memorySet now0 store key v ttl maxsize) key).1 = some v) ∧
    (t > now0 + ttl →
      (memoryGet t (memorySet now0 store key v ttl maxsize) key).1 = none ∧
      memLookup (memoryGet t (memorySet now0 store key v ttl maxsize) key).2 key = none) := by
  have hl := memLookup_memorySet now0 store key v ttl hmax
  constructor
  · intro ht
    rw [memoryGet_live hl ht]
  · intro ht
    rw [memoryGet_expired hl ht]
    exact ⟨rfl, memLookup_filter_ne _ _⟩

/-- C9 (witness). -/
theorem ttl_lazy_expiry_witness :
    (memoryGet 1 (memorySet 0 ([] : MemStore Nat) "k" 7 1 256) "k").1 = some 7 ∧
    (memoryGet 2 (memorySet 0 ([] : MemStore Nat) "k" 7 1 256) "k").1 = none :=
  ⟨(ttl_lazy_expiry Nat [] "k" 7 0 1 1 256 (by decide)).1 (by decide),
   ((ttl_lazy_expiry Nat [] "k" 7 0 1 2 256 (by decide)).2 (by decide)).1⟩

/-- C10: the catalog-id resolution strips a character set, not a suffix: for
content type series the rstrip character set is that of "_series", so the
ids "critics_picks_series" and "hidden_gems_series" are stripped to
"critics_pick" and "hidden_gem", which match no configured catalog, and the
resolution silently falls back to the "trending" configuration (whose prompt
and TTL differ from those catalogs' own configurations). -/
theorem catalog_rstrip_charset :
    pyRstrip "critics_picks_series" "_series" = "critics_pick" ∧
    lookupKey CATALOG_PROMPTS "critics_pick" = none ∧
    pyRstrip "hidden_gems_series" "_series" = "hidden_gem" ∧
    lookupKey CATALOG_PROMPTS "hidden_gem" = none ∧
    resolveCatalogConfig "critics_picks_series" ContentType.series =
      lookupKey CATALOG_PROMPTS "trending" ∧
    resolveCatalogConfig "hidden_gems_series" ContentType.series =
      lookupKey CATALOG_PROMPTS "trending" ∧
    lookupKey CATALOG_PROMPTS "critics_picks" ≠ lookupKey CATALOG_PROMPTS "trending" ∧
    lookupKey CATALOG_PROMPTS "hidden_gems" ≠ lookupKey CATALOG_PROMPTS "trending" := by
  decide
